import Mathlib

/-!
Shallow embedding of the jnet protocol codec library (Rust) in Lean 4.

Buffers are modelled as `List Nat` whose entries are byte values; `u8`,
`u16` and `u32` arithmetic from the source is modelled over `Nat` with
explicit masks and moduli at the points where the machine width matters.
Out-of-range list reads return 0 (the Rust code either checks bounds first
or uses unchecked accessors; the places where the source would read out of
bounds are noted in comments).  Rust functions that can panic on a
programmer error are modelled as `Option`-returning functions (`none` =
panic), and `parse` functions mirror the source's `Result` with `Except`.
-/

/-- Read the byte at index `i` of a buffer; out of range reads give 0. -/
def getByte (l : List Nat) (i : Nat) : Nat :=
  l.getD i 0

/-- Big-endian 16-bit read at index `i` (the source's `NE::read_u16`). -/
def readU16 (l : List Nat) (i : Nat) : Nat :=
  256 * getByte l i + getByte l (i + 1)

/-- Big-endian 16-bit write at index `i` (the source's `NE::write_u16`). -/
def writeU16 (l : List Nat) (i v : Nat) : List Nat :=
  (l.set i (v / 256)).set (i + 1) (v % 256)

/-- The `get!` macro of the source: `(byte >> OFFSET) & ((1 << SIZE) - 1)`. -/
def getBits (b off sz : Nat) : Nat :=
  (b >>> off) &&& ((1 <<< sz) - 1)

/-- The `set!` macro of the source on a `u8`:
`byte &= !(MASK << OFFSET); byte |= (value & MASK) << OFFSET`
(the `u8` complement of a mask `m` contained in 8 bits is `255 - m`). -/
def setBits (b off sz v : Nat) : Nat :=
  (b &&& (255 - (((1 <<< sz) - 1) <<< off))) ||| ((v &&& ((1 <<< sz) - 1)) <<< off)

/-- `copy_from_slice` of `v` into `l` starting at index `i`. -/
def listWriteAt : List Nat → Nat → List Nat → List Nat
  | l, _, [] => l
  | l, i, v :: vs => listWriteAt (l.set i v) (i + 1) vs

/-- Sub-slice `l[start..start+len]` as used by the source's range reads. -/
def listSlice (l : List Nat) (start len : Nat) : List Nat :=
  (l.drop start).take len

/-- `Truncate::truncate` from the `owning-slice` crate: shrink the buffer to
`len` elements if it is longer, otherwise leave it unchanged; this is
exactly `List.take`. -/
def listTruncate (l : List Nat) (len : Nat) : List Nat :=
  l.take len

/-- One step of the one's-complement carry folding loop
`sum = (sum & 0xffff) + (sum >> 16)`, run with explicit fuel so that the
definition is structurally recursive.  The callers pass fuel `s` for input
`s`, which always suffices because each iteration strictly decreases the
argument while it is at least 2^16. -/
def foldCarryAux : Nat → Nat → Nat
  | 0, s => s
  | fuel + 1, s => if s >>> 16 = 0 then s else foldCarryAux fuel ((s &&& 65535) + (s >>> 16))

/-- The `while sum >> 16 != 0` carry-folding loop shared by the checksum
computations of the source. -/
def foldCarry (s : Nat) : Nat :=
  foldCarryAux s s

/-- Bitwise `u16` negation `!(sum as u16)` of the source (for an operand
already reduced below 2^16 this is subtraction from 0xffff). -/
def notU16 (s : Nat) : Nat :=
  65535 - (s &&& 65535)

/- ===================== Ethernet (src/ether.rs) ===================== -/

/-- Ethernet frame view: just the borrowed buffer. -/
structure EtherFrame where
  buffer : List Nat
deriving DecidableEq

/-- `ether::Frame::parse`: requires at least the 14 header bytes and
returns the buffer back on failure. -/
def etherParse (bytes : List Nat) : Except (List Nat) EtherFrame :=
  if bytes.length < 14 then .error bytes else .ok ⟨bytes⟩

/- ===================== ARP (src/arp.rs) ===================== -/

/-- ARP packet view (the `Unknown`/`Unknown` type state). -/
structure ArpPacket where
  buffer : List Nat
deriving DecidableEq

/-- ARP HLEN field (byte 4 of the header). -/
def arpGetHlen (l : List Nat) : Nat := getByte l 4

/-- ARP PLEN field (byte 5 of the header). -/
def arpGetPlen (l : List Nat) : Nat := getByte l 5

/-- `arp::Packet::parse`: the 8-byte header must fit, and the payload must
hold SHA/SPA/THA/TPA, i.e. `2 * (HLEN + PLEN)` further bytes. -/
def arpParse (bytes : List Nat) : Except (List Nat) ArpPacket :=
  if bytes.length < 8 then .error bytes
  else if bytes.length < 8 + 2 * (arpGetHlen bytes + arpGetPlen bytes) then .error bytes
  else .ok ⟨bytes⟩

/- ===================== IPv4 (src/ipv4.rs) ===================== -/

/-- IPv4 packet view (the checksum type state is compile-time only). -/
structure Ipv4Packet where
  buffer : List Nat
deriving DecidableEq

/-- IPv4 Version field: high nibble of byte 0. -/
def ipv4GetVersion (l : List Nat) : Nat := getBits (getByte l 0) 4 4

/-- IPv4 IHL field: low nibble of byte 0. -/
def ipv4GetIhl (l : List Nat) : Nat := getBits (getByte l 0) 0 4

/-- IPv4 Total Length field: big-endian bytes 2..4. -/
def ipv4GetTotalLength (l : List Nat) : Nat := readU16 l 2

/-- IPv4 Fragment Offset field: the low 13 bits of big-endian bytes 6..8. -/
def ipv4GetFragmentOffset (l : List Nat) : Nat := getBits (readU16 l 6) 0 13

/-- IPv4 DF flag: bit 6 of byte 6. -/
def ipv4GetDf (l : List Nat) : Bool := getBits (getByte l 6) 6 1 == 1

/-- IPv4 MF flag: bit 5 of byte 6. -/
def ipv4GetMf (l : List Nat) : Bool := getBits (getByte l 6) 5 1 == 1

/-- `ipv4::Packet::set_fragment_offset`.  The source writes the low byte of
`fo` to byte 7, then on byte 6 clears the low 5 bits with
`!(MASK << OFFSET).high()` (= `&= 0xE0`) and ORs in `(fo << OFFSET).high()`
(= `fo >> 8`), WITHOUT masking that high byte to the 5 bits of the field. -/
def ipv4SetFragmentOffset (l : List Nat) (fo : Nat) : List Nat :=
  let l1 := l.set 7 (fo % 256)
  l1.set 6 ((getByte l1 6 &&& 224) ||| (fo >>> 8))

/-- The 32-bit wrapping one's-complement accumulation over 16-bit big-endian
words used by `ipv4::verify_checksum` (`chunks_exact(2)`: a trailing odd
byte is ignored). -/
def ipv4SumExact : Nat → List Nat → Nat
  | acc, a :: b :: rest => ipv4SumExact ((acc + (256 * a + b)) % 4294967296) rest
  | acc, _ => acc

/-- `ipv4::verify_checksum`: sum all 16-bit words (checksum field included)
and test `sum.low() + sum.high() == 0xffff`. -/
def ipv4VerifyChecksum (header : List Nat) : Bool :=
  let s := ipv4SumExact 0 header
  (s &&& 65535) + (s >>> 16) == 65535

/-- `ipv4::Packet::parse`.  Requires 20 bytes, IHL ≥ 5, TotalLength ≥ the
header length, Version = 4 and a valid header checksum; the buffer is
truncated to TotalLength only when TotalLength is smaller than
`u16(len).unwrap_or(u16::MAX)` = `min len 65535`.  The source reads the
header via an unchecked `rt(..header_len)`, which the model renders as
`List.take` (clamping); when `header_len` exceeds the buffer the Rust code
would read out of bounds. -/
def ipv4Parse (bytes : List Nat) : Except (List Nat) Ipv4Packet :=
  if bytes.length < 20 then .error bytes
  else
    let headerLen := ipv4GetIhl bytes * 4
    let totalLen := ipv4GetTotalLength bytes
    if headerLen < 20 then .error bytes
    else if totalLen < headerLen then .error bytes
    else if ipv4GetVersion bytes ≠ 4 then .error bytes
    else if ipv4VerifyChecksum (bytes.take headerLen) then
      if totalLen < min bytes.length 65535 then .ok ⟨listTruncate bytes totalLen⟩
      else .ok ⟨bytes⟩
    else .error bytes

/- ===================== IPv6 (src/ipv6.rs) ===================== -/

/-- IPv6 packet view. -/
structure Ipv6Packet where
  buffer : List Nat
deriving DecidableEq

/-- `Protocol::is_ipv6_extension_header` from src/ipv4.rs (shared by the
IPv6 module as `NextHeader`): the extension-header protocol numbers. -/
def isIpv6ExtensionHeader (b : Nat) : Bool :=
  b == 0 || b == 43 || b == 44 || b == 50 || b == 51 || b == 60 ||
  b == 135 || b == 139 || b == 140 || b == 253 || b == 254

/-- `ipv6::Packet::parse`: unlike every other codec in the crate this
returns `Result<Self, ()>` — the error value is the unit value, the input
buffer is dropped on failure. -/
def ipv6Parse (bytes : List Nat) : Except Unit Ipv6Packet :=
  if bytes.length < 40 then .error ()
  else if getBits (getByte bytes 0) 4 4 ≠ 6 then .error ()
  else if isIpv6ExtensionHeader (getByte bytes 6) then .error ()
  else .ok ⟨bytes⟩

/-- IPv6 address predicate `is_multicast`: first byte is 0xff. -/
def ipv6IsMulticast (a : List Nat) : Bool := getByte a 0 == 255

/-- IPv6 address predicate `is_unspecified`: all 16 bytes are zero. -/
def ipv6IsUnspecified (a : List Nat) : Bool := a == List.replicate 16 0

/-- IPv6 address predicate `is_link_local`: the first 8 bytes are
`fe80:0000:0000:0000`. -/
def ipv6IsLinkLocal (a : List Nat) : Bool := a.take 8 == [254, 128, 0, 0, 0, 0, 0, 0]

/- ===================== ICMP (src/icmp.rs) ===================== -/

/-- ICMP message view (the `Unknown`/`Valid` type state after `parse`). -/
structure IcmpMessage where
  buffer : List Nat
deriving DecidableEq

/-- `icmp::Message::parse`: at least the 8 header bytes, and the
one's-complement checksum over the entire message must verify
(via `ipv4::verify_checksum`). -/
def icmpParse (bytes : List Nat) : Except (List Nat) IcmpMessage :=
  if bytes.length < 8 then .error bytes
  else if ipv4VerifyChecksum bytes then .ok ⟨bytes⟩
  else .error bytes

/- ===================== ICMPv6 (src/icmpv6.rs) ===================== -/

/-- ICMPv6 message view (subtype type states are compile-time only). -/
structure Icmpv6Message where
  buffer : List Nat
deriving DecidableEq

/-- `icmpv6::Message::parse`: only checks that the 4 fixed header bytes are
present.  Its doc comment states: "NOTE this function does not validate the
message checksum" (the pseudo-header addresses are not available). -/
def icmpv6Parse (bytes : List Nat) : Except (List Nat) Icmpv6Message :=
  if bytes.length < 4 then .error bytes else .ok ⟨bytes⟩

/-- Sum of the 16-bit big-endian words of `chunks_exact(2)` (both 16-byte
addresses of the pseudo-header are summed this way). -/
def wordSumExact : List Nat → Nat
  | a :: b :: rest => (256 * a + b) + wordSumExact rest
  | _ => 0

/-- The message part of `icmpv6::Message::compute_checksum`: 16-bit words of
`chunks(2)` with the chunk of index 1 (the Checksum field) skipped and a
trailing single byte contributing `byte << 8`. -/
def icmpv6BodySum : Nat → List Nat → Nat
  | _, [] => 0
  | i, [a] => if i = 1 then 0 else 256 * a
  | i, a :: b :: rest => (if i = 1 then 0 else 256 * a + b) + icmpv6BodySum (i + 1) rest

/-- `icmpv6::Message::compute_checksum`: IPv6 pseudo-header (src, dst,
upper-layer length, NextHeader = 58) plus the message with its checksum
field skipped, carries folded, then negated.  The source accumulates in a
`u32`; overflow (only reachable for buffers of ~128 KiB) is not modelled. -/
def icmpv6ComputeChecksum (msg src dest : List Nat) : Nat :=
  let len := msg.length
  let s := wordSumExact src + wordSumExact dest
    + (len >>> 16) + (len &&& 65535) + 58 + icmpv6BodySum 0 msg
  notU16 (foldCarry s)

/-- `icmpv6::Message::get_checksum`: big-endian bytes 2..4. -/
def icmpv6GetChecksum (msg : List Nat) : Nat := readU16 msg 2

/-- `icmpv6::Message::verify_checksum`. -/
def icmpv6VerifyChecksum (msg src dest : List Nat) : Bool :=
  icmpv6ComputeChecksum msg src dest == icmpv6GetChecksum msg

/-- `icmpv6::Message::update_checksum`: recompute and store at bytes 2..4. -/
def icmpv6UpdateChecksum (msg src dest : List Nat) : List Nat :=
  writeU16 msg 2 (icmpv6ComputeChecksum msg src dest)

/- ===================== IEEE 802.15.4 (src/ieee802154.rs) ===================== -/

/-- 802.15.4 frame view: buffer plus the cached payload offset. -/
structure Ieee154Frame where
  buffer : List Nat
  payload : Nat
deriving DecidableEq

/-- Addressing mode (the reserved bit pattern 0b01 is rejected by
`AddrMode::checked`). -/
inductive AddrMode where
  | nomode
  | short
  | extended
deriving DecidableEq

/-- `AddrMode::checked` on the two mode bits. -/
def addrModeChecked (bits : Nat) : Option AddrMode :=
  match bits &&& 3 with
  | 0 => some .nomode
  | 1 => none
  | 2 => some .short
  | _ => some .extended

/-- The frame-type code: Beacon = 0, Data = 1, Acknowledgment = 2,
MacCommand = 3 (`Type::from` is the identity on the 3 raw bits). -/
def frameTypeBits (bytes : List Nat) : Nat := getBits (getByte bytes 0) 0 3

/-- The validation closure inside `ieee802154::Frame::parse`, computing the
header length.  The destination branch reproduces the source condition
`if ftype != Type::Acknowledgment || ftype != Type::Beacon` verbatim (note
that this disjunction is true for every frame type). -/
def frameValidate (bytes : List Nat) : Except Unit Nat :=
  if bytes.length < 3 then .error ()
  else
    let ftype := frameTypeBits bytes
    match addrModeChecked (getBits (getByte bytes 1) 2 2),
          addrModeChecked (getBits (getByte bytes 1) 6 2) with
    | none, _ => .error ()
    | some _, none => .error ()
    | some destAddrMode, some srcAddrMode =>
      let destLen : Except Unit Nat :=
        match destAddrMode with
        | .nomode =>
          if ftype ≠ 2 ∨ ftype ≠ 0 then
            if srcAddrMode = .nomode then .error () else .ok 0
          else .ok 0
        | .short => .ok 2
        | .extended => .ok 8
      match destLen with
      | .error () => .error ()
      | .ok dl =>
        let srcLen : Except Unit Nat :=
          match srcAddrMode with
          | .nomode =>
            if ftype ≠ 2 then
              if destAddrMode = .nomode then .error () else .ok 0
            else .ok 0
          | .short => .ok 2
          | .extended => .ok 8
        match srcLen with
        | .error () => .error ()
        | .ok sl =>
          let withDestPan := if destAddrMode ≠ .nomode then 2 else 0
          let intraPan := getBits (getByte bytes 0) 6 1
          let withSrcPan := if srcAddrMode ≠ .nomode ∧ intraPan = 0 then 2 else 0
          let len := 3 + dl + sl + withDestPan + withSrcPan
          if bytes.length < len then .error () else .ok len

/-- `ieee802154::Frame::parse`: on success caches the payload offset, on
failure hands the buffer back. -/
def frameParse (bytes : List Nat) : Except (List Nat) Ieee154Frame :=
  match frameValidate bytes with
  | .ok len => .ok ⟨bytes, len⟩
  | .error () => .error bytes

/-- An 802.15.4 link-layer address: 16-bit short or 64-bit extended. -/
inductive LLAddr where
  | short (a : Nat)
  | extended (a : Nat)
deriving DecidableEq

/-- Big-endian byte serialization of a `u64` (`NE::write_u64`). -/
def u64BeBytes (a : Nat) : List Nat :=
  [(a >>> 56) &&& 255, (a >>> 48) &&& 255, (a >>> 40) &&& 255, (a >>> 32) &&& 255,
   (a >>> 24) &&& 255, (a >>> 16) &&& 255, (a >>> 8) &&& 255, a &&& 255]

/-- `ExtendedAddr::eui_64`: the big-endian bytes with the universal/local
bit (bit 1 of the first byte) toggled. -/
def eui64 (a : Nat) : List Nat :=
  match u64BeBytes a with
  | b0 :: rest => (b0 ^^^ 2) :: rest
  | [] => []

/- ===================== 6LoWPAN IPHC (src/sixlowpan/iphc.rs) ===================== -/

/-- LOWPAN_IPHC packet view: buffer plus the cached payload offset. -/
structure IphcPacket where
  buffer : List Nat
  payload : Nat
deriving DecidableEq

/-- IPHC encoding context: the link-layer addresses of the surrounding
802.15.4 frame. -/
structure IphcContext where
  source : Option LLAddr
  destination : Option LLAddr

/-- Maybe-compressed address returned by the IPHC getters. -/
inductive IphcAddr where
  | complete (a : List Nat)
  | elided
deriving DecidableEq

/-- IPHC dispatch bits (byte 0, offset 5, size 3; must be 0b011). -/
def iphcDispatch (l : List Nat) : Nat := getBits (getByte l 0) 5 3

/-- IPHC TF bits (byte 0, offset 3, size 2). -/
def iphcTf (l : List Nat) : Nat := getBits (getByte l 0) 3 2

/-- IPHC NH bit (byte 0, offset 2). -/
def iphcNh (l : List Nat) : Bool := getBits (getByte l 0) 2 1 ≠ 0

/-- IPHC HLIM bits (byte 0, offset 0, size 2). -/
def iphcHlim (l : List Nat) : Nat := getBits (getByte l 0) 0 2

/-- IPHC CID bit (byte 1, offset 7). -/
def iphcCid (l : List Nat) : Bool := getBits (getByte l 1) 7 1 ≠ 0

/-- IPHC SAC bit (byte 1, offset 6). -/
def iphcSac (l : List Nat) : Bool := getBits (getByte l 1) 6 1 ≠ 0

/-- IPHC SAM bits (byte 1, offset 4, size 2). -/
def iphcSam (l : List Nat) : Nat := getBits (getByte l 1) 4 2

/-- IPHC M bit (byte 1, offset 3). -/
def iphcM (l : List Nat) : Bool := getBits (getByte l 1) 3 1 ≠ 0

/-- IPHC DAC bit (byte 1, offset 2). -/
def iphcDac (l : List Nat) : Bool := getBits (getByte l 1) 2 1 ≠ 0

/-- IPHC DAM bits (byte 1, offset 0, size 2). -/
def iphcDam (l : List Nat) : Nat := getBits (getByte l 1) 0 2

/-- `cid_size`. -/
def iphcCidSize (l : List Nat) : Nat := if iphcCid l then 1 else 0

/-- `tf_size`. -/
def iphcTfSize (l : List Nat) : Nat :=
  match iphcTf l with
  | 0 => 4
  | 1 => 3
  | 2 => 1
  | _ => 0

/-- `nh_size`. -/
def iphcNhSize (l : List Nat) : Nat := if iphcNh l then 0 else 1

/-- `hlim_size`. -/
def iphcHlimSize (l : List Nat) : Nat := if iphcHlim l = 0 then 1 else 0

/-- `src_addr_size` from the (SAC, SAM) table. -/
def iphcSrcAddrSize (l : List Nat) : Nat :=
  match iphcSac l, iphcSam l with
  | false, 0 => 16
  | false, 1 => 8
  | false, 2 => 2
  | false, _ => 0
  | true, 0 => 0
  | true, 1 => 8
  | true, 2 => 2
  | true, _ => 0

/-- `dest_addr_size` from the (M, DAC, DAM) table; the reserved
combinations are errors. -/
def iphcDestAddrSize (l : List Nat) : Except Unit Nat :=
  match iphcM l, iphcDac l, iphcDam l with
  | false, false, 0 => .ok 16
  | false, false, 1 => .ok 8
  | false, false, 2 => .ok 2
  | false, false, _ => .ok 0
  | false, true, 0 => .error ()
  | false, true, 1 => .ok 8
  | false, true, 2 => .ok 2
  | false, true, _ => .ok 0
  | true, false, 0 => .ok 16
  | true, false, 1 => .ok 6
  | true, false, 2 => .ok 4
  | true, false, _ => .ok 1
  | true, true, 0 => .ok 6
  | true, true, _ => .error ()

/-- `iphc::Packet::parse`: checks the dispatch value, rejects the
unsupported CID = 1, (SAC = 1 ∧ SAM ≠ 0) and DAC = 1 modes, walks the size
table once to compute the payload offset, and checks it against the buffer
length. -/
def iphcParse (bytes : List Nat) : Except (List Nat) IphcPacket :=
  let v : Except Unit Nat :=
    if bytes.length < 2 then .error ()
    else if iphcDispatch bytes ≠ 3 then .error ()
    else if iphcCid bytes ∨ (iphcSac bytes ∧ iphcSam bytes ≠ 0) ∨ iphcDac bytes then .error ()
    else
      match iphcDestAddrSize bytes with
      | .error () => .error ()
      | .ok destSz =>
        let len := 2 + iphcCidSize bytes + iphcTfSize bytes + iphcNhSize bytes
          + iphcHlimSize bytes + iphcSrcAddrSize bytes + destSz
        if bytes.length < len then .error () else .ok len
  match v with
  | .ok len => .ok ⟨bytes, len⟩
  | .error () => .error bytes

/-- `ip_fields_start` = 2 + cid_size. -/
def iphcIpFieldsStart (l : List Nat) : Nat := 2 + iphcCidSize l

/-- `iphc::Packet::get_source`.  The start index skips TF, NH and HLIM; the
(SAC, SAM) table then reconstructs the address or reports it elided. -/
def iphcGetSource (p : IphcPacket) : IphcAddr :=
  let l := p.buffer
  let start := iphcIpFieldsStart l + iphcTfSize l + iphcNhSize l + iphcHlimSize l
  match iphcSac l, iphcSam l with
  | false, 0 => .complete (listSlice l start 16)
  | false, 1 => .complete ([254, 128, 0, 0, 0, 0, 0, 0] ++ listSlice l start 8)
  | false, 2 =>
    .complete ([254, 128, 0, 0, 0, 0, 0, 0, 0, 0, 0, 255, 254, 0] ++ listSlice l start 2)
  | false, _ => .elided
  | true, _ => .complete (List.replicate 16 0)

/-- `iphc::Packet::get_destination`: like `get_source` but additionally
skips the source-address bytes and uses the (M, DAC, DAM) table, with the
multicast forms `ffXX::00XX:XXXX:XXXX` (6 bytes), `ffXX::00XX:XXXX`
(4 bytes) and `ff02::00XX` (1 byte).  The DAC = 1 rows are rejected by
`parse` and unreachable here. -/
def iphcGetDestination (p : IphcPacket) : IphcAddr :=
  let l := p.buffer
  let start := iphcIpFieldsStart l + iphcTfSize l + iphcNhSize l + iphcHlimSize l
    + iphcSrcAddrSize l
  match iphcM l, iphcDam l with
  | false, 0 => .complete (listSlice l start 16)
  | false, 1 => .complete ([254, 128, 0, 0, 0, 0, 0, 0] ++ listSlice l start 8)
  | false, 2 =>
    .complete ([254, 128, 0, 0, 0, 0, 0, 0, 0, 0, 0, 255, 254, 0] ++ listSlice l start 2)
  | false, _ => .elided
  | true, 0 => .complete (listSlice l start 16)
  | true, 1 =>
    .complete ([255, getByte l start, 0, 0, 0, 0, 0, 0, 0, 0, 0] ++ listSlice l (start + 1) 5)
  | true, 2 =>
    .complete ([255, getByte l start, 0, 0, 0, 0, 0, 0, 0, 0, 0, 0, 0] ++ listSlice l (start + 1) 3)
  | true, _ =>
    .complete ([255, 2, 0, 0, 0, 0, 0, 0, 0, 0, 0, 0, 0, 0, 0, getByte l start])

/-- `ElidedAddr::complete`: rebuild a link-local address from the
link-layer address (short addresses map into EUI-64 as `0000:00ff:fe00:XXXX`,
extended addresses are placed as their EUI-64 bytes). -/
def elidedComplete (ll : LLAddr) : List Nat :=
  match ll with
  | .short sa => [254, 128, 0, 0, 0, 0, 0, 0, 0, 0, 0, 255, 254, 0, (sa / 256) % 256, sa % 256]
  | .extended ea => [254, 128, 0, 0, 0, 0, 0, 0] ++ eui64 ea

/-- The extended-address test of `iphc::Packet::new`: the context holds an
extended link-layer address whose EUI-64 bytes equal the interface
identifier of the IPv6 address. -/
def ctxtMatchesEui (c : Option LLAddr) (iid : List Nat) : Bool :=
  match c with
  | some (.extended ea) => eui64 ea == iid
  | _ => false

/-- `iphc::Packet::new`.  Encodes `src`/`dest` choosing compressed forms
from the context; panics (`none`) when an assertion fails, when the source
address is multicast, or when a write would fall outside the buffer.  The
multicast fallback branch reproduces the source verbatim: it writes the
full 16-byte address but sets DAM = 0b11. -/
def iphcNew (buffer : List Nat) (nextHeader : Option Nat) (hopLimit : Nat)
    (src dest : List Nat) (ctxt : IphcContext) : Option IphcPacket := do
  let blen := buffer.length
  guard (2 ≤ blen)
  guard (¬ ipv6IsMulticast src)
  -- DISPATCH + (TF = 0b11) and a cleared second byte
  let buf := (buffer.set 0 0b01111000).set 1 0b00000000
  -- Next Header: inline byte at index 2 or the NH flag
  let (buf, idx) ← (match nextHeader with
    | some nh =>
      if 2 < blen then some (buf.set 2 nh, 3)
      else none
    | none => some (buf.set 0 (setBits (getByte buf 0) 2 1 1), 2) : Option (List Nat × Nat))
  -- Hop Limit: compressed when 255 / 64 / 1, otherwise inline
  let (buf, idx) ← (if hopLimit = 255 then
      some (buf.set 0 (setBits (getByte buf 0) 0 2 3), idx)
    else if hopLimit = 64 then
      some (buf.set 0 (setBits (getByte buf 0) 0 2 2), idx)
    else if hopLimit = 1 then
      some (buf.set 0 (setBits (getByte buf 0) 0 2 1), idx)
    else do
      let buf := buf.set 0 (setBits (getByte buf 0) 0 2 0)
      let idx := idx + 1
      guard (idx ≤ blen)
      pure (buf.set (idx - 1) hopLimit, idx) : Option (List Nat × Nat))
  -- Source address
  let (buf, idx) ← (if ipv6IsUnspecified src then
      some (buf.set 1 (setBits (getByte buf 1) 6 1 1), idx)
    else if ipv6IsLinkLocal src then
      if listSlice src 8 6 = [0, 0, 0, 255, 254, 0] then
        if ctxt.source = some (.short (readU16 src 14)) then
          some (buf.set 1 (setBits (getByte buf 1) 4 2 3), idx)
        else do
          let buf := buf.set 1 (setBits (getByte buf 1) 4 2 2)
          let idx := idx + 2
          guard (idx ≤ blen)
          pure (listWriteAt buf (idx - 2) (listSlice src 14 2), idx)
      else
        if ctxtMatchesEui ctxt.source (src.drop 8) then
          some (buf.set 1 (setBits (getByte buf 1) 4 2 3), idx)
        else do
          let buf := buf.set 1 (setBits (getByte buf 1) 4 2 1)
          let idx := idx + 8
          guard (idx ≤ blen)
          pure (listWriteAt buf (idx - 8) (src.drop 8), idx)
    else do
      let idx := idx + 16
      guard (idx ≤ blen)
      pure (listWriteAt buf (idx - 16) src, idx) : Option (List Nat × Nat))
  -- Destination address
  let (buf, idx) ← (if ipv6IsMulticast dest then do
      let buf := buf.set 1 (setBits (getByte buf 1) 3 1 1)
      if getByte dest 1 = 2 ∧ listSlice dest 2 13 = List.replicate 13 0 then do
        let buf := buf.set 1 (setBits (getByte buf 1) 0 2 3)
        let idx := idx + 1
        guard (idx ≤ blen)
        pure (buf.set (idx - 1) (getByte dest 15), idx)
      else if listSlice dest 2 11 = List.replicate 11 0 then do
        let buf := buf.set 1 (setBits (getByte buf 1) 0 2 2)
        let idx := idx + 4
        guard (idx ≤ blen)
        let buf := buf.set (idx - 4) (getByte dest 1)
        pure (listWriteAt buf (idx - 3) (dest.drop 13), idx)
      else if listSlice dest 2 9 = List.replicate 9 0 then do
        let buf := buf.set 1 (setBits (getByte buf 1) 0 2 1)
        let idx := idx + 6
        guard (idx ≤ blen)
        let buf := buf.set (idx - 6) (getByte dest 1)
        pure (listWriteAt buf (idx - 5) (dest.drop 11), idx)
      else do
        -- source slip: full inline write but DAM = 0b11
        let buf := buf.set 1 (setBits (getByte buf 1) 0 2 3)
        let idx := idx + 16
        guard (idx ≤ blen)
        pure (listWriteAt buf (idx - 16) dest, idx)
    else
      if ipv6IsLinkLocal dest then
        if listSlice dest 8 6 = [0, 0, 0, 255, 254, 0] then
          if ctxt.destination = some (.short (readU16 dest 14)) then
            some (buf.set 1 (setBits (getByte buf 1) 0 2 3), idx)
          else do
            let buf := buf.set 1 (setBits (getByte buf 1) 0 2 2)
            let idx := idx + 2
            guard (idx ≤ blen)
            pure (listWriteAt buf (idx - 2) (listSlice dest 14 2), idx)
        else
          if ctxtMatchesEui ctxt.destination (dest.drop 8) then
            some (buf.set 1 (setBits (getByte buf 1) 0 2 3), idx)
          else do
            let buf := buf.set 1 (setBits (getByte buf 1) 0 2 1)
            let idx := idx + 8
            guard (idx ≤ blen)
            pure (listWriteAt buf (idx - 8) (dest.drop 8), idx)
      else do
        let buf := buf.set 1 (setBits (getByte buf 1) 0 2 0)
        let idx := idx + 16
        guard (idx ≤ blen)
        pure (listWriteAt buf (idx - 16) dest, idx) : Option (List Nat × Nat))
  pure ⟨buf, idx⟩

/-- `iphc::Packet::set_payload`: copy the data into the payload region and
truncate the buffer to `payload + data.len()` (a `u8` count in the
source). -/
def iphcSetPayload (p : IphcPacket) (data : List Nat) : Option IphcPacket :=
  if p.payload + data.length ≤ p.buffer.length ∧ p.payload + data.length ≤ 255 then
    some ⟨listTruncate (listWriteAt p.buffer p.payload data) (p.payload + data.length), p.payload⟩
  else none

/- ===================== 6LoWPAN NHC UDP (src/sixlowpan/nhc.rs) ===================== -/

/-- LOWPAN_NHC compressed UDP packet view: buffer plus cached payload
offset. -/
structure NhcUdpPacket where
  buffer : List Nat
  payload : Nat
deriving DecidableEq

/-- NHC ID bits (byte 0, offset 3, size 5; must be 0b11110). -/
def nhcId (l : List Nat) : Nat := getBits (getByte l 0) 3 5

/-- The C "checksum elided" NHC bit (byte 0, offset 2). -/
def nhcC (l : List Nat) : Bool := getBits (getByte l 0) 2 1 ≠ 0

/-- The P port-compression NHC bits (byte 0, offset 0, size 2). -/
def nhcP (l : List Nat) : Nat := getBits (getByte l 0) 0 2

/-- `ports_size` per the port-compression mode. -/
def nhcPortsSize (l : List Nat) : Nat :=
  match nhcP l with
  | 0 => 4
  | 1 => 3
  | 2 => 3
  | _ => 1

/-- `UdpPacket::get_source`. -/
def nhcGetSource (l : List Nat) : Nat :=
  match nhcP l with
  | 0 => readU16 l 1
  | 1 => readU16 l 1
  | 2 => 0xf000 + getByte l 1
  | _ => 0xf0b0 + (getByte l 1 >>> 4)

/-- `UdpPacket::get_destination`. -/
def nhcGetDestination (l : List Nat) : Nat :=
  match nhcP l with
  | 0 => readU16 l 3
  | 1 => 0xf000 + getByte l 3
  | 2 => readU16 l 2
  | _ => 0xf0b0 + (getByte l 1 &&& 0x0f)

/-- `UdpPacket::get_checksum`: `none` when the checksum was elided,
otherwise the 16-bit field right after the port fields. -/
def nhcGetChecksum (l : List Nat) : Option Nat :=
  if ¬ nhcC l then some (readU16 l (1 + nhcPortsSize l)) else none

/-- `UdpPacket::parse`. -/
def nhcParse (bytes : List Nat) : Except (List Nat) NhcUdpPacket :=
  if bytes.length < 1 then .error bytes
  else if nhcId bytes ≠ 0b11110 then .error bytes
  else
    let start := 1 + (if ¬ nhcC bytes then 2 else 0) + nhcPortsSize bytes
    if bytes.length < start then .error bytes else .ok ⟨bytes, start⟩

/-- The payload sum of `UdpPacket::compute_checksum`: `chunks(2)` with a
trailing single byte contributing `byte << 8`. -/
def nhcPayloadSum : List Nat → Nat
  | [] => 0
  | [a] => 256 * a
  | a :: b :: rest => (256 * a + b) + nhcPayloadSum rest

/-- `UdpPacket::compute_checksum`: IPv6 pseudo-header with NextHeader = 17,
the UDP length (payload + 8) counted twice (pseudo-header and the
reconstructed UDP header), the two ports, and the payload; carries folded
and the result negated. -/
def nhcComputeChecksum (p : NhcUdpPacket) (src dest : List Nat) : Nat :=
  let l := p.buffer
  let udpLen := (l.drop p.payload).length + 8
  let s := wordSumExact src + wordSumExact dest
    + (udpLen >>> 16) + (udpLen &&& 65535) + 17
    + nhcGetSource l + nhcGetDestination l
    + (udpLen >>> 16) + (udpLen &&& 65535)
    + nhcPayloadSum (l.drop p.payload)
  notU16 (foldCarry s)

/-- `UdpPacket::verify_ipv6_checksum`: an elided checksum verifies
trivially. -/
def nhcVerifyIpv6Checksum (p : NhcUdpPacket) (src dest : List Nat) : Bool :=
  match nhcGetChecksum p.buffer with
  | some cksum => nhcComputeChecksum p src dest == cksum
  | none => true

/-- `UdpPacket::update_checksum`: when the checksum is not elided, write
the computed value at the field right after the port fields. -/
def nhcUpdateChecksum (p : NhcUdpPacket) (src dest : List Nat) : NhcUdpPacket :=
  if ¬ nhcC p.buffer then
    ⟨writeU16 p.buffer (1 + nhcPortsSize p.buffer) (nhcComputeChecksum p src dest), p.payload⟩
  else p

/- ===================== CoAP (src/coap.rs) ===================== -/

/-- CoAP message in the `Unset` payload state: buffer, the cached position
where the payload marker would go, and the highest option number added so
far. -/
structure CoapUnset where
  buffer : List Nat
  marker : Nat
  number : Nat
deriving DecidableEq

/-- CoAP message in the `Set` payload state (also the state produced by
`parse`): buffer, cached payload-marker position (0 = `NO_PAYLOAD`), and
the highest option number. -/
structure CoapMessage where
  buffer : List Nat
  marker : Nat
  number : Nat
deriving DecidableEq

/-- `Message::get_token_length`: the low nibble of byte 0. -/
def coapGetTokenLength (l : List Nat) : Nat := getBits (getByte l 0) 0 4

/-- `Message::new`: requires `token_length ≤ 8` and a buffer that holds the
4-byte header plus the token; writes Version = 1 (bits 6..8 of byte 0) and
the token length (bits 0..4 of byte 0) and caches
`marker = HEADER_SIZE + token_length`. -/
def coapNew (buffer : List Nat) (tokenLength : Nat) : Option CoapUnset :=
  if tokenLength ≤ 8 ∧ 4 + tokenLength ≤ buffer.length then
    let b0 := setBits (getByte buffer 0) 6 2 1
    let b0 := setBits b0 0 4 tokenLength
    some ⟨buffer.set 0 b0, 4 + tokenLength, 0⟩
  else none

/-- `Message::set_type` (bits 4..6 of byte 0). -/
def coapSetType (m : CoapUnset) (ty : Nat) : CoapUnset :=
  { m with buffer := m.buffer.set 0 (setBits (getByte m.buffer 0) 4 2 ty) }

/-- `Message::set_code` (byte 1). -/
def coapSetCode (m : CoapUnset) (c : Nat) : CoapUnset :=
  { m with buffer := m.buffer.set 1 c }

/-- `Message::set_message_id` (big-endian bytes 2..4). -/
def coapSetMessageId (m : CoapUnset) (i : Nat) : CoapUnset :=
  { m with buffer := writeU16 m.buffer 2 i }

/-- The `nbytes` helper of `Message::add_option`: extension bytes needed to
encode a delta or length value. -/
def coapNbytes (x : Nat) : Nat :=
  if x < 13 then 0 else if x < 269 then 1 else 2

/-- `Message::add_option`.  Panics (`none`) when the option number is below
the highest one already present (`checked_sub().unwrap()`), when the value
does not fit in a `u16`, or when a write falls outside the buffer; the
bound `≤ 65535` mirrors the `u16` marker arithmetic (which would fail a
debug overflow check in the source).  On success writes the option header
byte (two `set!` calls on the same byte), the extension bytes and the
value, advances the marker by the serialized size and records the new
highest number. -/
def coapAddOption (m : CoapUnset) (nr : Nat) (value : List Nat) : Option CoapUnset :=
  if nr < m.number ∨ 65535 < value.length then none
  else
    let delta := nr - m.number
    let len := value.length
    let sz := 1 + coapNbytes delta + coapNbytes len + len
    let start := m.marker
    let stop := m.marker + sz
    if m.buffer.length < stop ∨ 65535 < stop then none
    else
      let buf := m.buffer
      -- fill in the delta
      let (buf, cursor) :=
        if delta < 13 then
          (buf.set start (setBits (getByte buf start) 4 4 delta), start + 1)
        else if delta < 269 then
          ((buf.set start (setBits (getByte buf start) 4 4 13)).set (start + 1) (delta - 13),
            start + 2)
        else
          (writeU16 (buf.set start (setBits (getByte buf start) 4 4 14)) (start + 1) (delta - 269),
            start + 3)
      -- fill in the length
      let (buf, cursor) :=
        if len < 13 then
          (buf.set start (setBits (getByte buf start) 0 4 len), cursor)
        else if len < 269 then
          ((buf.set start (setBits (getByte buf start) 0 4 13)).set cursor (len - 13), cursor + 1)
        else
          (writeU16 (buf.set start (setBits (getByte buf start) 0 4 14)) cursor (len - 269),
            cursor + 2)
      -- fill in the value
      some ⟨listWriteAt buf cursor value, stop, nr⟩

/-- `Message::set_payload`: for non-empty data write the `PAYLOAD_MARKER`
byte 0xff at the marker position followed by the data and truncate the
buffer past it; for empty data set the marker to `NO_PAYLOAD` (0) and
truncate at the marker. -/
def coapSetPayload (m : CoapUnset) (data : List Nat) : Option CoapMessage :=
  if data = [] then
    some ⟨listTruncate m.buffer m.marker, 0, m.number⟩
  else if m.marker + 1 + data.length ≤ m.buffer.length ∧ m.marker + 1 + data.length ≤ 65535 then
    some ⟨listTruncate (listWriteAt (m.buffer.set m.marker 255) (m.marker + 1) data)
            (m.marker + 1 + data.length),
          m.marker, m.number⟩
  else none

/-- `Message::as_bytes` in the `Unset` payload state: only the committed
prefix up to the cached marker position. -/
def coapUnsetAsBytes (m : CoapUnset) : List Nat :=
  m.buffer.take m.marker

/-- `Message::as_bytes` in the `Set` payload state: the whole buffer. -/
def coapAsBytes (m : CoapMessage) : List Nat :=
  m.buffer

/-- `Message::payload` (`Set` state): empty when the marker is
`NO_PAYLOAD`, otherwise everything after the marker byte. -/
def coapPayload (m : CoapMessage) : List Nat :=
  if m.marker = 0 then [] else m.buffer.drop (m.marker + 1)

/-- The loop body of the option `scan` inside `Message::parse`, with
explicit fuel (the callers pass `bytes.length + 1`, which always suffices
because the cursor strictly increases each iteration).  Walks option
headers accumulating the option number until the payload marker or the end
of the slice; a missing extended delta/length byte is an error, as is the
reserved nibble 15.  In the 16-bit extension cases the source checks only
`len < cursor + 1` before reading two bytes, so with exactly one byte left
it reads one byte out of bounds; the model renders that byte as 0.  The
cursor advances past the declared value length without a bounds check, so
a value extending beyond the end of the slice makes the next iteration see
the end of the packet and succeed. -/
def coapScanAux (bytes : List Nat) : Nat → Nat → Nat → Except Unit (Nat × Option Nat)
  | 0, _, _ => .error ()
  | fuel + 1, cursor, number =>
    match bytes[cursor]? with
    | none => .ok (number, none)
    | some head =>
      if head = 255 then .ok (number, some cursor)
      else
        let c1 := cursor + 1
        let delta4 := getBits head 4 4
        let len4 := getBits head 0 4
        let stepDelta : Except Unit (Nat × Nat) :=
          if delta4 = 13 then
            match bytes[c1]? with
            | none => .error ()
            | some byte => .ok (c1 + 1, number + byte + 13)
          else if delta4 = 14 then
            if bytes.length < c1 + 1 then .error ()
            else .ok (c1 + 2, number + readU16 bytes c1 + 269)
          else if delta4 = 15 then .error ()
          else .ok (c1, number + delta4)
        match stepDelta with
        | .error () => .error ()
        | .ok (c2, number2) =>
          let stepLen : Except Unit Nat :=
            if len4 = 13 then
              match bytes[c2]? with
              | none => .error ()
              | some byte => .ok (c2 + 1 + (byte + 13))
            else if len4 = 14 then
              if bytes.length < c2 + 1 then .error ()
              else .ok (c2 + 2 + (readU16 bytes c2 + 269))
            else if len4 = 15 then .error ()
            else .ok (c2 + len4)
          match stepLen with
          | .error () => .error ()
          | .ok c3 => coapScanAux bytes fuel c3 number2

/-- The `scan` helper of `Message::parse`: returns the highest option
number and the index of the payload marker, both relative to the start of
the option region it is handed. -/
def coapScan (bytes : List Nat) : Except Unit (Nat × Option Nat) :=
  coapScanAux bytes (bytes.length + 1) 0 0

/-- `Message::parse`.  Checks the header and token fit, scans the option
region, and on success stores the scan results.  Note that the marker
returned by `scan` is an index into the option region
(`rf(opts_start..)`) and is stored unadjusted, while `payload` and
`options` interpret the stored marker as an absolute buffer index. -/
def coapParse (bytes : List Nat) : Except (List Nat) CoapMessage :=
  if bytes.length < 4 then .error bytes
  else
    let optsStart := 4 + coapGetTokenLength bytes
    if bytes.length < optsStart then .error bytes
    else
      match coapScan (bytes.drop optsStart) with
      | .ok (number, marker) => .ok ⟨bytes, marker.getD 0, number⟩
      | .error () => .error bytes

/-- One builder step of the CoAP claim's construction sequence. -/
inductive CoapBuildOp where
  | setType (t : Nat)
  | setCode (c : Nat)
  | setMessageId (i : Nat)
  | addOption (n : Nat) (v : List Nat)
deriving DecidableEq

/-- Apply one builder step to an `Unset` message. -/
def coapApplyOp (m : CoapUnset) : CoapBuildOp → Option CoapUnset
  | .setType t => some (coapSetType m t)
  | .setCode c => some (coapSetCode m c)
  | .setMessageId i => some (coapSetMessageId m i)
  | .addOption n v => coapAddOption m n v

/-- Apply a sequence of builder steps. -/
def coapApplyOps (m : CoapUnset) : List CoapBuildOp → Option CoapUnset
  | [] => some m
  | op :: ops =>
    match coapApplyOp m op with
    | none => none
    | some m' => coapApplyOps m' ops

/-- Serialized size of one added option given the previous highest
number. -/
def coapOptSize (prev n : Nat) (v : List Nat) : Nat :=
  1 + coapNbytes (n - prev) + coapNbytes v.length + v.length

/-- Total serialized size of the options added by a builder sequence,
tracking the running highest option number. -/
def coapOpsSize (prev : Nat) : List CoapBuildOp → Nat
  | [] => 0
  | .addOption n v :: ops => coapOptSize prev n v + coapOpsSize n ops
  | _ :: ops => coapOpsSize prev ops

/- ===================== Helper lemmas ===================== -/

theorem getByte_lt_256 (l : List Nat) (i : Nat) (h : ∀ b ∈ l, b < 256) :
    getByte l i < 256 := by
  unfold getByte
  rcases Nat.lt_or_ge i l.length with hi | hi
  · rw [List.getD_eq_getElem l 0 hi]
    exact h _ (List.getElem_mem hi)
  · rw [List.getD_eq_default l 0 hi]
    omega

theorem getByte_set_ne (l : List Nat) (i j v : Nat) (h : i ≠ j) :
    getByte (l.set i v) j = getByte l j := by
  unfold getByte
  rcases Nat.lt_or_ge j l.length with hj | hj
  · rw [List.getD_eq_getElem _ 0 (by simpa using hj), List.getD_eq_getElem l 0 hj,
      List.getElem_set_ne (by omega)]
  · rw [List.getD_eq_default _ 0 (by simpa using hj), List.getD_eq_default l 0 hj]

theorem getByte_set_eq (l : List Nat) (i v : Nat) (h : i < l.length) :
    getByte (l.set i v) i = v := by
  unfold getByte
  rw [List.getD_eq_getElem _ 0 (by simpa using h), List.getElem_set_self]

theorem listWriteAt_length (v : List Nat) : ∀ l i, (listWriteAt l i v).length = l.length := by
  induction v with
  | nil => intro l i; rfl
  | cons a v ih => intro l i; rw [listWriteAt, ih, List.length_set]

theorem writeU16_length (l : List Nat) (i v : Nat) : (writeU16 l i v).length = l.length := by
  unfold writeU16
  rw [List.length_set, List.length_set]

theorem writeU16_getByte_lo (l : List Nat) (i v : Nat) (h : i + 1 < l.length) :
    getByte (writeU16 l i v) (i + 1) = v % 256 := by
  unfold writeU16
  exact getByte_set_eq _ _ _ (by simpa using h)

theorem writeU16_getByte_hi (l : List Nat) (i v : Nat) (h : i < l.length) :
    getByte (writeU16 l i v) i = v / 256 := by
  unfold writeU16
  rw [getByte_set_ne _ _ _ _ (by omega), getByte_set_eq _ _ _ h]

theorem writeU16_readU16 (l : List Nat) (i v : Nat) (h : i + 1 < l.length) :
    readU16 (writeU16 l i v) i = v := by
  unfold readU16
  rw [writeU16_getByte_lo _ _ _ h, writeU16_getByte_hi _ _ _ (by omega)]
  omega

theorem writeU16_getByte_ne (l : List Nat) (i v j : Nat) (h1 : j ≠ i) (h2 : j ≠ i + 1) :
    getByte (writeU16 l i v) j = getByte l j := by
  unfold writeU16
  rw [getByte_set_ne _ _ _ _ (by omega), getByte_set_ne _ _ _ _ (by omega)]

theorem writeU16_drop (l : List Nat) (i v n : Nat) (h : i + 1 < n) :
    (writeU16 l i v).drop n = l.drop n := by
  unfold writeU16
  rw [List.drop_set_of_lt _ _ (by omega), List.drop_set_of_lt _ _ (by omega)]

theorem land_two_pow_sub_one (x n : Nat) : x &&& (2 ^ n - 1) = x % 2 ^ n :=
  Nat.and_pow_two_sub_one_eq_mod x n

theorem land65535 (x : Nat) : x &&& 65535 = x % 65536 := by
  have := land_two_pow_sub_one x 16; norm_num at this; exact this

theorem land8191 (x : Nat) : x &&& 8191 = x % 8192 := by
  have := land_two_pow_sub_one x 13; norm_num at this; exact this

theorem land1 (x : Nat) : x &&& 1 = x % 2 :=
  land_two_pow_sub_one x 1

theorem shiftr5 (x : Nat) : x >>> 5 = x / 32 :=
  Nat.shiftRight_eq_div_pow x 5

theorem shiftr6 (x : Nat) : x >>> 6 = x / 64 :=
  Nat.shiftRight_eq_div_pow x 6

theorem shiftr8 (x : Nat) : x >>> 8 = x / 256 :=
  Nat.shiftRight_eq_div_pow x 8

set_option maxRecDepth 4096 in
theorem land224 : ∀ b < 256, b &&& 224 = 32 * (b / 32) := by decide

set_option maxRecDepth 4096 in
theorem lor32 : ∀ a < 8, ∀ c < 32, 32 * a ||| c = 32 * a + c := by decide

theorem notU16_le (s : Nat) : notU16 s ≤ 65535 := Nat.sub_le _ _

theorem getBits_lt (b off sz : Nat) : getBits b off sz < 2 ^ sz := by
  unfold getBits
  rw [Nat.shiftLeft_eq, one_mul, land_two_pow_sub_one]
  exact Nat.mod_lt _ (Nat.two_pow_pos sz)

/- ===================== Claim theorems ===================== -/

/-- C1: the CoAP build-then-parse round trip fails for a non-empty payload.
Building a message over a 6-byte buffer with token length 0 and payload
`[42]` yields the wire bytes `40 00 00 00 FF 2A`, whose own payload view is
`[42]`; reparsing those bytes succeeds but stores the payload-marker index
relative to the option region (0) instead of the absolute index (4), which
collides with the `NO_PAYLOAD` sentinel, so the reparsed message's
`payload()` is `[]`, not `[42]`. -/
theorem coapRoundTripPayloadLost :
    (coapNew (List.replicate 6 0) 0).bind (fun m0 => coapSetPayload m0 [42]) =
      some ⟨[64, 0, 0, 0, 255, 42], 4, 0⟩ ∧
    coapPayload ⟨[64, 0, 0, 0, 255, 42], 4, 0⟩ = [42] ∧
    coapAsBytes ⟨[64, 0, 0, 0, 255, 42], 4, 0⟩ = [64, 0, 0, 0, 255, 42] ∧
    coapParse [64, 0, 0, 0, 255, 42] = .ok ⟨[64, 0, 0, 0, 255, 42], 0, 0⟩ ∧
    coapPayload ⟨[64, 0, 0, 0, 255, 42], 0, 0⟩ = [] ∧
    ([] : List Nat) ≠ [42] :=
  ⟨rfl, rfl, rfl, rfl, rfl, by decide⟩

/-- C2: the IPHC build-then-parse round trip fails for a multicast
destination that fits none of the 1-, 4- or 6-byte compressed forms.
`Packet::new` with destination `ff03:0100::1` takes the multicast fallback
branch, which writes the full 16 inline address bytes but sets DAM = 0b11
(the 1-byte form); reparsing the resulting bytes therefore reads a 1-byte
compressed form and `get_destination` reconstructs `ff02::ff`, not the
original address. -/
theorem iphcMulticastRoundTripFails :
    iphcNew (List.replicate 40 0) (some 17) 255 (List.replicate 16 0)
        [255, 3, 1, 0, 0, 0, 0, 0, 0, 0, 0, 0, 0, 0, 0, 1] ⟨none, none⟩ =
      some ⟨[123, 75, 17, 255, 3, 1, 0, 0, 0, 0, 0, 0, 0, 0, 0, 0, 0, 0, 1] ++
              List.replicate 21 0, 19⟩ ∧
    iphcSetPayload ⟨[123, 75, 17, 255, 3, 1, 0, 0, 0, 0, 0, 0, 0, 0, 0, 0, 0, 0, 1] ++
        List.replicate 21 0, 19⟩ [] =
      some ⟨[123, 75, 17, 255, 3, 1, 0, 0, 0, 0, 0, 0, 0, 0, 0, 0, 0, 0, 1], 19⟩ ∧
    iphcParse [123, 75, 17, 255, 3, 1, 0, 0, 0, 0, 0, 0, 0, 0, 0, 0, 0, 0, 1] =
      .ok ⟨[123, 75, 17, 255, 3, 1, 0, 0, 0, 0, 0, 0, 0, 0, 0, 0, 0, 0, 1], 4⟩ ∧
    iphcGetDestination ⟨[123, 75, 17, 255, 3, 1, 0, 0, 0, 0, 0, 0, 0, 0, 0, 0, 0, 0, 1], 4⟩ =
      .complete [255, 2, 0, 0, 0, 0, 0, 0, 0, 0, 0, 0, 0, 0, 0, 255] ∧
    ipv6IsMulticast [255, 3, 1, 0, 0, 0, 0, 0, 0, 0, 0, 0, 0, 0, 0, 1] = true ∧
    ([255, 2, 0, 0, 0, 0, 0, 0, 0, 0, 0, 0, 0, 0, 0, 255] : List Nat) ≠
      [255, 3, 1, 0, 0, 0, 0, 0, 0, 0, 0, 0, 0, 0, 0, 1] := by
  refine ⟨by decide, by decide, ?_, rfl, rfl, by decide⟩
  rfl

/-- C4: the option-region scan accepts a buffer that ends in the middle of
an option value.  The message `40 00 00 00 05` has token length 0 and a
single option header at index 4 declaring a 5-byte value, but the buffer
ends immediately after the header; the scan skips the cursor past the end
of the slice, the next iteration sees end-of-packet, and `parse` succeeds
with "no payload" instead of rejecting the truncated option. -/
theorem coapParseAcceptsTruncatedOption :
    coapParse [64, 0, 0, 0, 5] = .ok ⟨[64, 0, 0, 0, 5], 0, 0⟩ ∧
    getBits (getByte [64, 0, 0, 0, 5] 4) 0 4 = 5 ∧
    ([64, 0, 0, 0, 5] : List Nat).length < 4 + 1 + 5 :=
  ⟨rfl, by decide, by decide⟩

/-- C6 counterexample: IPv6's `parse` does not carry the buffer back on
failure.  Two different too-short buffers produce the very same error
value (the unit value), so the original buffer cannot be recovered from
the error, contradicting the claim for the IPv6 codec. -/
theorem ipv6ParseDropsBuffer :
    ipv6Parse [0] = .error () ∧ ipv6Parse [1] = .error () ∧
    ipv6Parse [0] = ipv6Parse [1] ∧ ([0] : List Nat) ≠ [1] :=
  ⟨rfl, rfl, rfl, by decide⟩

/-- C6 amended: every codec except IPv6 hands the original buffer back
unchanged when `parse` fails; IPv6's `parse` instead returns the unit
error value and drops the buffer. -/
theorem parseErrorReturnsBuffer :
    (∀ bytes e, etherParse bytes = .error e → e = bytes) ∧
    (∀ bytes e, arpParse bytes = .error e → e = bytes) ∧
    (∀ bytes e, ipv4Parse bytes = .error e → e = bytes) ∧
    (∀ bytes e, icmpParse bytes = .error e → e = bytes) ∧
    (∀ bytes e, icmpv6Parse bytes = .error e → e = bytes) ∧
    (∀ bytes e, frameParse bytes = .error e → e = bytes) ∧
    (∀ bytes e, iphcParse bytes = .error e → e = bytes) ∧
    (∀ bytes e, nhcParse bytes = .error e → e = bytes) ∧
    (∀ bytes e, coapParse bytes = .error e → e = bytes) ∧
    (∀ bytes (e : Unit), ipv6Parse bytes = .error e → e = ()) := by
  refine ⟨?_, ?_, ?_, ?_, ?_, ?_, ?_, ?_, ?_, ?_⟩ <;> intro bytes e h
  · simp only [etherParse] at h; split at h <;> simp_all
  · simp only [arpParse] at h; split_ifs at h <;> simp_all
  · simp only [ipv4Parse] at h; split_ifs at h <;> simp_all
  · simp only [icmpParse] at h; split_ifs at h <;> simp_all
  · simp only [icmpv6Parse] at h; split at h <;> simp_all
  · simp only [frameParse] at h; split at h <;> simp_all
  · simp only [iphcParse] at h; split at h <;> simp_all
  · simp only [nhcParse] at h; split_ifs at h <;> simp_all
  · simp only [coapParse] at h
    split_ifs at h
    · simp_all
    · simp_all
    · split at h <;> simp_all
  · rfl

/-- C6 witness: the amended statement applied to concrete failing
buffers. -/
theorem parseErrorReturnsBufferWitness : ([5] : List Nat) = [5] ∧ ([] : List Nat) = [] :=
  ⟨parseErrorReturnsBuffer.1 [5] [5] rfl, parseErrorReturnsBuffer.2.2.2.2.2.2.2.2.1 [] [] rfl⟩

/-- C7 counterexample: an Acknowledgment frame with both addressing modes
set to None is rejected by `Frame::parse`.  The bytes `02 00 00` encode
frame type Acknowledgment (2), both addressing modes 0 (None) and a
sequence number, yet `parse` returns an error, contradicting the claim
that ACK/Beacon frames with both modes None are accepted. -/
theorem frameParseRejectsAckBothNone :
    frameParse [2, 0, 0] = .error [2, 0, 0] ∧
    frameTypeBits [2, 0, 0] = 2 ∧
    getBits (getByte [2, 0, 0] 1) 2 2 = 0 ∧
    getBits (getByte [2, 0, 0] 1) 6 2 = 0 :=
  ⟨rfl, by decide, by decide, by decide⟩

/-- C7 amended: `Frame::parse` rejects EVERY frame whose destination and
source addressing modes are both None, regardless of the frame type —
including Acknowledgment and Beacon frames — because the source condition
`ftype != Type::Acknowledgment || ftype != Type::Beacon` is true for every
frame type; for non-ACK/non-Beacon frames this matches the claim. -/
theorem frameParseBothNoneAlwaysRejected (bytes : List Nat)
    (h3 : 3 ≤ bytes.length)
    (hd : getBits (getByte bytes 1) 2 2 = 0)
    (hs : getBits (getByte bytes 1) 6 2 = 0) :
    frameParse bytes = .error bytes := by
  have hcond : frameTypeBits bytes ≠ 2 ∨ frameTypeBits bytes ≠ 0 := by
    rcases Nat.decEq (frameTypeBits bytes) 2 with h | h
    · left; exact h
    · right; omega
  simp only [frameParse, frameValidate, hd, hs]
  rw [if_neg (by omega)]
  simp only [addrModeChecked]
  norm_num
  rw [if_pos hcond]

/-- C7 witness: the amended statement applied to the concrete
Acknowledgment frame bytes `02 00 00`. -/
theorem frameParseBothNoneWitness : frameParse [2, 0, 0] = .error [2, 0, 0] :=
  frameParseBothNoneAlwaysRejected [2, 0, 0] (by decide) (by decide) (by decide)

/-- C3 counterexample: `ipv4::Packet::parse` accepts a 20-byte packet whose
TotalLength field is 100, without truncation or error; the packet extent
implied by TotalLength (100 bytes) therefore lies outside the returned
view's 20-byte buffer. -/
theorem ipv4ParseAcceptsOversizedTotalLength :
    ipv4Parse [69, 0, 0, 100, 0, 0, 64, 0, 64, 17, 184, 112, 192, 168, 0, 1, 192, 168, 0, 199] =
      .ok ⟨[69, 0, 0, 100, 0, 0, 64, 0, 64, 17, 184, 112, 192, 168, 0, 1, 192, 168, 0, 199]⟩ ∧
    ipv4GetTotalLength
        [69, 0, 0, 100, 0, 0, 64, 0, 64, 17, 184, 112, 192, 168, 0, 1, 192, 168, 0, 199] = 100 ∧
    ([69, 0, 0, 100, 0, 0, 64, 0, 64, 17, 184, 112, 192, 168, 0, 1, 192, 168, 0, 199] :
        List Nat).length = 20 :=
  ⟨rfl, by decide, by decide⟩

/-- C3 amended: after a successful IPv4 parse the minimum 20-byte header
lies inside the buffer (IHL ≥ 5, TotalLength ≥ IHL·4, buffer ≥ 20 bytes and
never grown), and the buffer is truncated to TotalLength exactly when
TotalLength does not exceed the (u16-sized) input; the full extent implied
by TotalLength (and by an IHL larger than the buffer) is NOT guaranteed to
lie inside the buffer.  For ARP the claim does hold: a successful parse
guarantees the whole HLEN/PLEN-implied layout is inside the buffer. -/
theorem ipv4ArpParseBounds (bytes : List Nat) (hb : ∀ b ∈ bytes, b < 256) :
    (∀ p, ipv4Parse bytes = .ok p →
      20 ≤ 4 * ipv4GetIhl bytes ∧
      4 * ipv4GetIhl bytes ≤ ipv4GetTotalLength bytes ∧
      20 ≤ p.buffer.length ∧
      p.buffer.length ≤ bytes.length ∧
      (ipv4GetTotalLength bytes ≤ bytes.length → bytes.length ≤ 65535 →
        p.buffer.length = ipv4GetTotalLength bytes)) ∧
    (∀ q, arpParse bytes = .ok q →
      8 + 2 * (arpGetHlen bytes + arpGetPlen bytes) ≤ q.buffer.length) := by
  constructor
  · intro p h
    have htl : ipv4GetTotalLength bytes < 65536 := by
      have h2 := getByte_lt_256 bytes 2 hb
      have h3 := getByte_lt_256 bytes (2 + 1) hb
      unfold ipv4GetTotalLength readU16
      omega
    simp only [ipv4Parse] at h
    split_ifs at h with h1 h2 h3 h4 h5 h6
    · cases h
      dsimp only [listTruncate]
      rw [List.length_take]
      omega
    · cases h
      dsimp only
      rw [Nat.min_def] at h6
      split_ifs at h6 <;> omega
  · intro q h
    simp only [arpParse] at h
    split_ifs at h with h1 h2
    cases h
    dsimp only
    omega

/-- C3 witness: the amended bounds applied to the 20-byte header test
vector of the repository (TotalLength 0x73 with a valid checksum) and to a
concrete ARP packet. -/
theorem ipv4ArpParseBoundsWitness :
    (20 ≤ 4 * ipv4GetIhl
        [69, 0, 0, 115, 0, 0, 64, 0, 64, 17, 184, 97, 192, 168, 0, 1, 192, 168, 0, 199] ∧
      4 * ipv4GetIhl
          [69, 0, 0, 115, 0, 0, 64, 0, 64, 17, 184, 97, 192, 168, 0, 1, 192, 168, 0, 199] ≤
        ipv4GetTotalLength
          [69, 0, 0, 115, 0, 0, 64, 0, 64, 17, 184, 97, 192, 168, 0, 1, 192, 168, 0, 199] ∧
      20 ≤ (Ipv4Packet.mk
          [69, 0, 0, 115, 0, 0, 64, 0, 64, 17, 184, 97, 192, 168, 0, 1, 192, 168, 0, 199]
            ).buffer.length ∧
      (Ipv4Packet.mk
          [69, 0, 0, 115, 0, 0, 64, 0, 64, 17, 184, 97, 192, 168, 0, 1, 192, 168, 0, 199]
            ).buffer.length ≤
        ([69, 0, 0, 115, 0, 0, 64, 0, 64, 17, 184, 97, 192, 168, 0, 1, 192, 168, 0, 199] :
          List Nat).length ∧
      (ipv4GetTotalLength
          [69, 0, 0, 115, 0, 0, 64, 0, 64, 17, 184, 97, 192, 168, 0, 1, 192, 168, 0, 199] ≤
        ([69, 0, 0, 115, 0, 0, 64, 0, 64, 17, 184, 97, 192, 168, 0, 1, 192, 168, 0, 199] :
          List Nat).length →
        ([69, 0, 0, 115, 0, 0, 64, 0, 64, 17, 184, 97, 192, 168, 0, 1, 192, 168, 0, 199] :
          List Nat).length ≤ 65535 →
        (Ipv4Packet.mk
            [69, 0, 0, 115, 0, 0, 64, 0, 64, 17, 184, 97, 192, 168, 0, 1, 192, 168, 0, 199]
              ).buffer.length =
          ipv4GetTotalLength
            [69, 0, 0, 115, 0, 0, 64, 0, 64, 17, 184, 97, 192, 168, 0, 1, 192, 168, 0, 199])) ∧
    8 + 2 * (arpGetHlen [0, 1, 8, 0, 6, 4, 0, 2, 1, 2, 3, 4, 5, 6, 9, 9, 9, 9, 1, 2, 3, 4, 5, 6,
        8, 8, 8, 8] +
      arpGetPlen [0, 1, 8, 0, 6, 4, 0, 2, 1, 2, 3, 4, 5, 6, 9, 9, 9, 9, 1, 2, 3, 4, 5, 6,
        8, 8, 8, 8]) ≤
      (ArpPacket.mk [0, 1, 8, 0, 6, 4, 0, 2, 1, 2, 3, 4, 5, 6, 9, 9, 9, 9, 1, 2, 3, 4, 5, 6,
        8, 8, 8, 8]).buffer.length :=
  ⟨(ipv4ArpParseBounds
      [69, 0, 0, 115, 0, 0, 64, 0, 64, 17, 184, 97, 192, 168, 0, 1, 192, 168, 0, 199]
      (by decide)).1 _ rfl,
   (ipv4ArpParseBounds [0, 1, 8, 0, 6, 4, 0, 2, 1, 2, 3, 4, 5, 6, 9, 9, 9, 9, 1, 2, 3, 4, 5, 6,
      8, 8, 8, 8] (by decide)).2 _ rfl⟩

/-- C5 counterexample: ICMPv6's `parse` succeeds on a message whose
checksum does not verify.  The 4-byte message `80 00 00 00` (Echo Request,
stored checksum 0) parses successfully although `verify_checksum` computed
against any pseudo-header — here zero source and destination addresses —
is false. -/
theorem icmpv6ParseAcceptsBadChecksum :
    icmpv6Parse [128, 0, 0, 0] = .ok ⟨[128, 0, 0, 0]⟩ ∧
    icmpv6VerifyChecksum [128, 0, 0, 0] (List.replicate 16 0) (List.replicate 16 0) = false :=
  ⟨rfl, by decide⟩

/-- C5 amended: IPv4 and ICMP reject checksum mismatches on parse (a
successful parse implies the stored checksum verifies), but ICMPv6's
`parse` performs NO checksum verification — per its own doc note, the
pseudo-header addresses are not available — and accepts every buffer of at
least 4 bytes. -/
theorem parseChecksumBehaviour :
    (∀ bytes m, icmpParse bytes = .ok m → ipv4VerifyChecksum bytes = true) ∧
    (∀ bytes p, ipv4Parse bytes = .ok p →
      ipv4VerifyChecksum (bytes.take (ipv4GetIhl bytes * 4)) = true) ∧
    (∀ bytes, 4 ≤ bytes.length → icmpv6Parse bytes = .ok ⟨bytes⟩) := by
  refine ⟨?_, ?_, ?_⟩
  · intro bytes m h
    simp only [icmpParse] at h
    split_ifs at h with h1 h2
    exact h2
  · intro bytes p h
    simp only [ipv4Parse] at h
    split_ifs at h with h1 h2 h3 h4 h5 h6 <;> exact h5
  · intro bytes h
    simp only [icmpv6Parse]
    rw [if_neg (by omega)]

/-- C5 witness: the amended statement applied to the repository's IPv4
header test vector and to the 4-byte ICMPv6 message `80 00 00 00`. -/
theorem parseChecksumBehaviourWitness :
    ipv4VerifyChecksum
      (([69, 0, 0, 115, 0, 0, 64, 0, 64, 17, 184, 97, 192, 168, 0, 1, 192, 168, 0, 199] :
        List Nat).take
        (ipv4GetIhl
          [69, 0, 0, 115, 0, 0, 64, 0, 64, 17, 184, 97, 192, 168, 0, 1, 192, 168, 0, 199] * 4)) =
      true ∧
    icmpv6Parse [128, 0, 0, 0] = .ok ⟨[128, 0, 0, 0]⟩ :=
  ⟨parseChecksumBehaviour.2.1
      [69, 0, 0, 115, 0, 0, 64, 0, 64, 17, 184, 97, 192, 168, 0, 1, 192, 168, 0, 199] _ rfl,
   parseChecksumBehaviour.2.2 [128, 0, 0, 0] (by decide)⟩

/-- C8 counterexample: `set_fragment_offset(0x2000)` on a zeroed header is
accepted by the setter (every `u16` is), but the following get returns 0,
not 0x2000, and the neighbouring MF flag bit is flipped from false to true
because the unmasked high byte of the argument is ORed into the flags. -/
theorem ipv4FragmentOffsetHighBitsLeak :
    ipv4GetFragmentOffset (ipv4SetFragmentOffset (List.replicate 20 0) 8192) = 0 ∧
    (0 : Nat) ≠ 8192 ∧
    ipv4GetMf (List.replicate 20 0) = false ∧
    ipv4GetMf (ipv4SetFragmentOffset (List.replicate 20 0) 8192) = true :=
  ⟨by decide, by decide, by decide, by decide⟩

/-- C8 amended: the set/get round trip for the IPv4 Fragment Offset holds
for every argument below 2^13 (the 13-bit field domain), and for such
arguments the setter leaves the DF and MF flag bits untouched; for larger
arguments the get returns the value modulo 2^13 and the flag bits can be
disturbed. -/
theorem ipv4FragmentOffsetRoundTrip (l : List Nat) (fo : Nat)
    (hfo : fo < 8192) (hlen : 8 ≤ l.length) (hb : getByte l 6 < 256) :
    ipv4GetFragmentOffset (ipv4SetFragmentOffset l fo) = fo ∧
    ipv4GetDf (ipv4SetFragmentOffset l fo) = ipv4GetDf l ∧
    ipv4GetMf (ipv4SetFragmentOffset l fo) = ipv4GetMf l := by
  have hmask13 : (1 : Nat) <<< 13 - 1 = 8191 := by decide
  have hmask1 : (1 : Nat) <<< 1 - 1 = 1 := by decide
  have h6 : getByte (l.set 7 (fo % 256)) 6 = getByte l 6 :=
    getByte_set_ne l 7 6 (fo % 256) (by omega)
  have hq : getByte l 6 / 32 < 8 := by omega
  have hrb : fo >>> 8 < 32 := by rw [shiftr8]; omega
  have hr : fo / 256 < 32 := by omega
  have hb6 : getByte (ipv4SetFragmentOffset l fo) 6 =
      32 * (getByte l 6 / 32) + fo / 256 := by
    unfold ipv4SetFragmentOffset
    rw [getByte_set_eq _ _ _ (by rw [List.length_set]; omega), h6,
      land224 _ hb, lor32 _ hq _ hrb, shiftr8]
  have hb7 : getByte (ipv4SetFragmentOffset l fo) 7 = fo % 256 := by
    unfold ipv4SetFragmentOffset
    rw [getByte_set_ne _ _ _ _ (by omega), getByte_set_eq _ _ _ (by omega)]
  refine ⟨?_, ?_, ?_⟩
  · unfold ipv4GetFragmentOffset readU16 getBits
    rw [hb6, hb7, Nat.shiftRight_zero, hmask13, land8191]
    omega
  · unfold ipv4GetDf getBits
    rw [hb6, hmask1, shiftr6, shiftr6, land1, land1]
    have hdd : (32 * (getByte l 6 / 32) + fo / 256) / 64 = getByte l 6 / 64 := by omega
    rw [hdd]
  · unfold ipv4GetMf getBits
    rw [hb6, hmask1, shiftr5, shiftr5, land1, land1]
    have hdd : (32 * (getByte l 6 / 32) + fo / 256) / 32 = getByte l 6 / 32 := by omega
    rw [hdd]

/-- C8 witness: the amended round trip applied to a zeroed 20-byte header
and the in-range argument 8000. -/
theorem ipv4FragmentOffsetRoundTripWitness :
    ipv4GetFragmentOffset (ipv4SetFragmentOffset (List.replicate 20 0) 8000) = 8000 ∧
    ipv4GetDf (ipv4SetFragmentOffset (List.replicate 20 0) 8000) =
      ipv4GetDf (List.replicate 20 0) ∧
    ipv4GetMf (ipv4SetFragmentOffset (List.replicate 20 0) 8000) =
      ipv4GetMf (List.replicate 20 0) :=
  ipv4FragmentOffsetRoundTrip (List.replicate 20 0) 8000 (by decide) (by decide) (by decide)

/-- C9: updating a pseudo-header checksum establishes validity.  For every
ICMPv6 message view (at least the 4 header bytes) and every address pair,
`update_checksum` followed by `verify_checksum` returns true; likewise for
every NHC-compressed UDP packet whose checksum is not elided (its payload
offset being the 1 NHC byte + ports + 2 checksum bytes, inside the
buffer), `update_checksum` followed by `verify_ipv6_checksum` returns
true. -/
theorem checksumUpdateThenVerify :
    (∀ msg src dest : List Nat, 4 ≤ msg.length →
      icmpv6VerifyChecksum (icmpv6UpdateChecksum msg src dest) src dest = true) ∧
    (∀ p : NhcUdpPacket, ∀ src dest : List Nat, nhcC p.buffer = false →
      p.payload = 3 + nhcPortsSize p.buffer → p.payload ≤ p.buffer.length →
      nhcVerifyIpv6Checksum (nhcUpdateChecksum p src dest) src dest = true) := by
  constructor
  · intro msg src dest h
    obtain ⟨a, b, c, d, r, rfl⟩ : ∃ a b c d r, msg = a :: b :: c :: d :: r := by
      match msg, h with
      | a :: b :: c :: d :: r, _ => exact ⟨a, b, c, d, r, rfl⟩
    simp only [icmpv6UpdateChecksum, icmpv6ComputeChecksum, writeU16, List.set,
      icmpv6VerifyChecksum, icmpv6GetChecksum, readU16, getByte, List.getD_cons_zero,
      List.getD_cons_succ, icmpv6BodySum, List.length_cons]
    norm_num
    omega
  · intro p src dest hc hpay hlen
    have h4 : nhcP p.buffer < 4 := by
      have h := getBits_lt (getByte p.buffer 0) 0 2
      unfold nhcP
      omega
    have h0 : nhcP p.buffer = 0 ∨ nhcP p.buffer = 1 ∨ nhcP p.buffer = 2 ∨
        nhcP p.buffer = 3 := by omega
    have hnc : ¬ nhcC p.buffer := by simp [hc]
    set ck := nhcComputeChecksum p src dest with hckdef
    have hupd : nhcUpdateChecksum p src dest =
        ⟨writeU16 p.buffer (1 + nhcPortsSize p.buffer) ck, p.payload⟩ := by
      rw [nhcUpdateChecksum, if_pos hnc]
    set ps := nhcPortsSize p.buffer with hpsdef
    set buf := writeU16 p.buffer (1 + ps) ck with hbufdef
    have hlen' : 3 + ps ≤ p.buffer.length := hpay ▸ hlen
    have hread : ∀ j, j < 1 + ps → getByte buf j = getByte p.buffer j := by
      intro j hj
      rw [hbufdef]
      exact writeU16_getByte_ne _ _ _ _ (by omega) (by omega)
    have hb0 : getByte buf 0 = getByte p.buffer 0 := hread 0 (by omega)
    have hcC : nhcC buf = nhcC p.buffer := by unfold nhcC; rw [hb0]
    have hcP : nhcP buf = nhcP p.buffer := by unfold nhcP; rw [hb0]
    have hcPs : nhcPortsSize buf = ps := by
      rw [hpsdef]; unfold nhcPortsSize; rw [hcP]
    have hdrop : buf.drop p.payload = p.buffer.drop p.payload := by
      rw [hbufdef]
      exact writeU16_drop _ _ _ _ (by omega)
    have hsrc : nhcGetSource buf = nhcGetSource p.buffer := by
      unfold nhcGetSource
      rw [hcP]
      obtain hp | hp | hp | hp := h0
      · have hpsv : nhcPortsSize p.buffer = 4 := by unfold nhcPortsSize; rw [hp]
        rw [hp]
        simp [readU16, hread 1 (by omega), hread 2 (by omega)]
      · have hpsv : nhcPortsSize p.buffer = 3 := by unfold nhcPortsSize; rw [hp]
        rw [hp]
        simp [readU16, hread 1 (by omega), hread 2 (by omega)]
      · have hpsv : nhcPortsSize p.buffer = 3 := by unfold nhcPortsSize; rw [hp]
        rw [hp]
        simp [hread 1 (by omega)]
      · have hpsv : nhcPortsSize p.buffer = 1 := by unfold nhcPortsSize; rw [hp]
        rw [hp]
        simp [hread 1 (by omega)]
    have hdest : nhcGetDestination buf = nhcGetDestination p.buffer := by
      unfold nhcGetDestination
      rw [hcP]
      obtain hp | hp | hp | hp := h0
      · have hpsv : nhcPortsSize p.buffer = 4 := by unfold nhcPortsSize; rw [hp]
        rw [hp]
        simp [readU16, hread 3 (by omega), hread 4 (by omega)]
      · have hpsv : nhcPortsSize p.buffer = 3 := by unfold nhcPortsSize; rw [hp]
        rw [hp]
        simp [hread 3 (by omega)]
      · have hpsv : nhcPortsSize p.buffer = 3 := by unfold nhcPortsSize; rw [hp]
        rw [hp]
        simp [readU16, hread 2 (by omega), hread 3 (by omega)]
      · have hpsv : nhcPortsSize p.buffer = 1 := by unfold nhcPortsSize; rw [hp]
        rw [hp]
        simp [hread 1 (by omega)]
    have hcompute : nhcComputeChecksum ⟨buf, p.payload⟩ src dest = ck := by
      rw [hckdef]
      unfold nhcComputeChecksum
      dsimp only
      rw [hsrc, hdest]
      simp only [hdrop]
    have hgc : nhcGetChecksum buf = some ck := by
      unfold nhcGetChecksum
      rw [hcC, hcPs]
      rw [hbufdef, writeU16_readU16 _ _ _ (by omega)]
      simp [hc]
    rw [hupd]
    unfold nhcVerifyIpv6Checksum
    dsimp only
    rw [hgc, hcompute]
    simp

/-- C9 witness: the round trip at a concrete 4-byte ICMPv6 message and at
a concrete uncompressed-ports NHC UDP packet, with zero addresses. -/
theorem checksumUpdateThenVerifyWitness :
    icmpv6VerifyChecksum
        (icmpv6UpdateChecksum [128, 0, 0, 0] (List.replicate 16 0) (List.replicate 16 0))
        (List.replicate 16 0) (List.replicate 16 0) = true ∧
    nhcVerifyIpv6Checksum
        (nhcUpdateChecksum ⟨[240, 5, 57, 5, 57, 0, 0], 7⟩
          (List.replicate 16 0) (List.replicate 16 0))
        (List.replicate 16 0) (List.replicate 16 0) = true :=
  ⟨checksumUpdateThenVerify.1 [128, 0, 0, 0] _ _ (by decide),
   checksumUpdateThenVerify.2 ⟨[240, 5, 57, 5, 57, 0, 0], 7⟩ _ _ (by decide) (by decide)
     (by decide)⟩

theorem coapAddOption_spec (m : CoapUnset) (nr : Nat) (v : List Nat) (m' : CoapUnset)
    (h : coapAddOption m nr v = some m') :
    m'.marker = m.marker + coapOptSize m.number nr v ∧ m'.number = nr ∧
    m'.buffer.length = m.buffer.length ∧ m'.marker ≤ m'.buffer.length := by
  simp only [coapAddOption, coapOptSize] at h ⊢
  split_ifs at h
  all_goals
    first
      | exact Option.noConfusion h
      | (injection h with h
         subst h
         refine ⟨rfl, rfl, ?_, ?_⟩ <;> simp [listWriteAt_length, writeU16_length] <;> omega)

theorem coapApplyOps_spec (ops : List CoapBuildOp) :
    ∀ m m' : CoapUnset, coapApplyOps m ops = some m' →
      m'.marker = m.marker + coapOpsSize m.number ops ∧
      m'.buffer.length = m.buffer.length ∧
      (m.marker ≤ m.buffer.length → m'.marker ≤ m'.buffer.length) := by
  induction ops with
  | nil =>
    intro m m' h
    injection h with h
    subst h
    exact ⟨by simp [coapOpsSize], rfl, fun hh => hh⟩
  | cons op ops ih =>
    intro m m' h
    rw [coapApplyOps] at h
    cases hop : coapApplyOp m op with
    | none => rw [hop] at h; exact Option.noConfusion h
    | some m1 =>
      rw [hop] at h
      obtain ⟨h1, h2, h3⟩ := ih m1 m' h
      cases op with
      | setType t =>
        injection hop with hop
        subst hop
        refine ⟨?_, ?_, ?_⟩ <;>
          simp_all [coapSetType, coapOpsSize, List.length_set]
      | setCode c =>
        injection hop with hop
        subst hop
        refine ⟨?_, ?_, ?_⟩ <;>
          simp_all [coapSetCode, coapOpsSize, List.length_set]
      | setMessageId i =>
        injection hop with hop
        subst hop
        refine ⟨?_, ?_, ?_⟩ <;>
          simp_all [coapSetMessageId, coapOpsSize, writeU16_length]
      | addOption n v =>
        obtain ⟨g1, g2, g3, g4⟩ := coapAddOption_spec m n v m1 hop
        refine ⟨?_, ?_, ?_⟩
        · rw [h1, g1, g2, coapOpsSize]
          omega
        · rw [h2, g3]
        · intro _
          exact h3 g4

/-- C10: a CoAP message built by `new` and any sequence of setter and
`add_option` steps serializes, in the `PayloadUnset` state, exactly the
committed prefix: `as_bytes` is the buffer up to the cached marker, whose
position is the 4-byte header plus the token plus the options added so
far, never the unused tail of the construction buffer (whose length is
unchanged by the builder steps); only after `set_payload` does `as_bytes`
return the whole, truncated buffer. -/
theorem coapUnsetSerializesPrefix (buffer : List Nat) (tkl : Nat) (m0 : CoapUnset)
    (ops : List CoapBuildOp) (m : CoapUnset)
    (hnew : coapNew buffer tkl = some m0) (hops : coapApplyOps m0 ops = some m) :
    coapUnsetAsBytes m = m.buffer.take m.marker ∧
    m.marker = 4 + tkl + coapOpsSize 0 ops ∧
    m.marker ≤ m.buffer.length ∧
    m.buffer.length = buffer.length ∧
    (coapUnsetAsBytes m).length = m.marker ∧
    (∀ p ms, coapSetPayload m p = some ms → coapAsBytes ms = ms.buffer ∧
      ms.buffer.length = if p = [] then m.marker else m.marker + 1 + p.length) := by
  simp only [coapNew] at hnew
  split_ifs at hnew with hg
  · injection hnew with hnew
    subst hnew
    obtain ⟨h1, h2, h3⟩ := coapApplyOps_spec ops _ m hops
    simp only [List.length_set] at h2
    have hm : m.marker ≤ m.buffer.length := by
      apply h3
      simp only [List.length_set]
      omega
    refine ⟨rfl, by simpa using h1, hm, h2, ?_, ?_⟩
    · simp only [coapUnsetAsBytes, List.length_take]
      omega
    · intro p ms hsp
      simp only [coapSetPayload] at hsp
      split_ifs at hsp with hp hfit
      · injection hsp with hsp
        subst hsp
        refine ⟨rfl, ?_⟩
        rw [if_pos hp]
        simp only [listTruncate, List.length_take]
        omega
      · injection hsp with hsp
        subst hsp
        refine ⟨rfl, ?_⟩
        rw [if_neg hp]
        simp only [listTruncate, List.length_take, listWriteAt_length, List.length_set]
        omega

/-- C10 witness: the prefix-serialization statement at a concrete build
(24-byte buffer, token length 2, a set_type step and one 4-byte option). -/
theorem coapUnsetSerializesPrefixWitness :
    coapUnsetAsBytes
        ⟨[82, 0, 0, 0, 0, 0, 52, 7, 8, 9, 10, 0, 0, 0, 0, 0, 0, 0, 0, 0, 0, 0, 0, 0], 11, 3⟩ =
      ([82, 0, 0, 0, 0, 0, 52, 7, 8, 9, 10, 0, 0, 0, 0, 0, 0, 0, 0, 0, 0, 0, 0, 0] :
        List Nat).take 11 ∧
    (11 : Nat) = 4 + 2 + coapOpsSize 0 [.setType 1, .addOption 3 [7, 8, 9, 10]] ∧
    (11 : Nat) ≤
      ([82, 0, 0, 0, 0, 0, 52, 7, 8, 9, 10, 0, 0, 0, 0, 0, 0, 0, 0, 0, 0, 0, 0, 0] :
        List Nat).length ∧
    ([82, 0, 0, 0, 0, 0, 52, 7, 8, 9, 10, 0, 0, 0, 0, 0, 0, 0, 0, 0, 0, 0, 0, 0] :
        List Nat).length = (List.replicate 24 0 : List Nat).length ∧
    (coapUnsetAsBytes
        ⟨[82, 0, 0, 0, 0, 0, 52, 7, 8, 9, 10, 0, 0, 0, 0, 0, 0, 0, 0, 0, 0, 0, 0, 0],
          11, 3⟩).length = 11 ∧
    (∀ p ms, coapSetPayload
        ⟨[82, 0, 0, 0, 0, 0, 52, 7, 8, 9, 10, 0, 0, 0, 0, 0, 0, 0, 0, 0, 0, 0, 0, 0], 11, 3⟩ p =
          some ms →
      coapAsBytes ms = ms.buffer ∧
      ms.buffer.length = if p = [] then 11 else 11 + 1 + p.length) :=
  coapUnsetSerializesPrefix (List.replicate 24 0) 2
    ⟨[66, 0, 0, 0, 0, 0, 0, 0, 0, 0, 0, 0, 0, 0, 0, 0, 0, 0, 0, 0, 0, 0, 0, 0], 6, 0⟩
    [.setType 1, .addOption 3 [7, 8, 9, 10]]
    ⟨[82, 0, 0, 0, 0, 0, 52, 7, 8, 9, 10, 0, 0, 0, 0, 0, 0, 0, 0, 0, 0, 0, 0, 0], 11, 3⟩
    (by decide) (by decide)
